import Mathlib

/-!
Verification development for the lightweight lock-free memory tracker
(`src/yuxay/inc/yu/memory_lightweight.h`, namespace `yu::mem`).

The tracker is shallowly embedded as a sequential state machine: each C++
method becomes a Lean function from tracker state to tracker state.  Machine
integers are modelled as `Nat` with explicit reduction modulo `2^64`
(`std::size_t` / `std::uint64_t` on the 64-bit target) and `2^32` / `2^16` /
`2^8` for the `uint32_t` / `uint16_t` / `uint8_t` parameters.  Atomic
compare-and-swap loops collapse, in the sequential setting, to their
deterministic outcome (a CAS from the just-read value always succeeds; a
peak-update retry loop computes the maximum).  Pointers are modelled as
naturals with `0` playing the role of `nullptr`.
-/

-- ============================================================================
-- Configuration constants (struct LightweightConfig)
-- ============================================================================

namespace LightweightConfig

/-- `LightweightConfig::MaxAllocations` (256K slots). -/
def MaxAllocations : Nat := 262144

/-- `LightweightConfig::MaxTags`. -/
def MaxTags : Nat := 64

/-- `LightweightConfig::MaxTagNameLength`. -/
def MaxTagNameLength : Nat := 32

/-- `LightweightConfig::MaxProbes`. -/
def MaxProbes : Nat := 64

end LightweightConfig

-- ============================================================================
-- Machine-word arithmetic (std::size_t / std::uint64_t on the 64-bit target)
-- ============================================================================

/-- Modulus of a 64-bit machine word. -/
def W64 : Nat := 18446744073709551616

/-- `fetch_add` on a 64-bit atomic counter: wrapping addition. -/
def w64add (x y : Nat) : Nat := (x + y) % W64

/-- `fetch_sub` on a 64-bit atomic counter: wrapping subtraction. -/
def w64sub (x y : Nat) : Nat := (x + (W64 - y % W64)) % W64

/-- Pointwise update of a function, modelling a single array-slot store. -/
def updateFn {α : Type} (f : Nat → α) (i : Nat) (v : α) : Nat → α :=
  fun j => if j = i then v else f j

-- ============================================================================
-- Data model
-- ============================================================================

/-- `struct CompactRecord`: one slot of the record table.
`address = 0` models the `nullptr` free-slot sentinel. -/
structure CompactRecord where
  address : Nat
  size : Nat
  tag : Nat
  flags : Nat
  reserved : Nat

/-- The zero-initialized slot (the constructor `memset`s the whole buffer). -/
def emptyRecord : CompactRecord :=
  { address := 0, size := 0, tag := 0, flags := 0, reserved := 0 }

/-- `struct AtomicTagStats`: per-tag statistics block. -/
structure AtomicTagStats where
  currentBytes : Nat
  peakBytes : Nat
  allocCount : Nat
  freeCount : Nat
  name : String
  registered : Bool

/-- The value-initialized statistics block. -/
def emptyTagStats : AtomicTagStats :=
  { currentBytes := 0, peakBytes := 0, allocCount := 0, freeCount := 0,
    name := "", registered := false }

/-- `class LightweightTracker` state.  `records i` models `m_records[i]` for
`i < MaxAllocations`; `hasRecords` models `m_records != nullptr`;
`tagStats i` models `m_tagStats[i]` for `i < MaxTags`. -/
structure LightweightTracker where
  records : Nat → CompactRecord
  tagStats : Nat → AtomicTagStats
  totalBytes : Nat
  peakBytes : Nat
  activeCount : Nat
  droppedAllocations : Nat
  enabled : Bool
  hasRecords : Bool

-- ============================================================================
-- Hashing and probing
-- ============================================================================

/-- Bucket selection in `RecordAllocation` / `RecordDeallocation`:
`hash = ptr ^ (ptr >> 16); idx = hash % MaxAllocations`.  For pointers below
`2^64` the `Nat` xor/shift agree with the C++ `std::size_t` computation. -/
def hashIdx (ptr : Nat) : Nat :=
  (ptr ^^^ (ptr >>> 16)) % LightweightConfig.MaxAllocations

/-- The insertion probe loop of `RecordAllocation`: starting at probe number
`p` with `fuel` probes remaining, return the first probed slot whose `address`
is empty (the slot the claiming CAS succeeds on), or `none` when the probe
budget is exhausted. -/
def probeClaim (records : Nat → CompactRecord) (idx : Nat) : Nat → Nat → Option Nat
  | _, 0 => none
  | p, fuel + 1 =>
    let j := (idx + p) % LightweightConfig.MaxAllocations
    if (records j).address = 0 then some j
    else probeClaim records idx (p + 1) fuel

/-- The lookup probe loop of `RecordDeallocation`: return the first probed
slot holding `ptr`; stop with `none` at the first empty slot or when the
probe budget is exhausted. -/
def probeFind (records : Nat → CompactRecord) (ptr idx : Nat) : Nat → Nat → Option Nat
  | _, 0 => none
  | p, fuel + 1 =>
    let j := (idx + p) % LightweightConfig.MaxAllocations
    if (records j).address = ptr then some j
    else if (records j).address = 0 then none
    else probeFind records ptr idx (p + 1) fuel

-- ============================================================================
-- Hot-path operations
-- ============================================================================

/-- `LightweightTracker::RecordAllocation(ptr, size, tag, type)`.
The `size`/`tag`/`flags` arguments are reduced by the width of their C++
parameter types (`uint32_t`, `uint16_t`, `uint8_t`).  Sequentially, the CAS
claim succeeds exactly on the first empty probed slot; the peak-update CAS
retry loops compute the maximum of the old peak and the new current value. -/
def RecordAllocation (s : LightweightTracker) (ptr size tag flags : Nat) :
    LightweightTracker :=
  if ptr = 0 ∨ s.hasRecords = false ∨ s.enabled = false then s else
  let size := size % 4294967296
  let tag := tag % 65536
  let flags := flags % 256
  match probeClaim s.records (hashIdx ptr) 0 LightweightConfig.MaxProbes with
  | some j =>
    let records2 := updateFn s.records j
      { s.records j with address := ptr, size := size, tag := tag, flags := flags }
    let totalBytes2 := w64add s.totalBytes size
    let tagStats2 :=
      if tag < LightweightConfig.MaxTags then
        let st := s.tagStats tag
        let cur2 := w64add st.currentBytes size
        updateFn s.tagStats tag
          { st with
            currentBytes := cur2,
            allocCount := w64add st.allocCount 1,
            peakBytes := if st.peakBytes < cur2 then cur2 else st.peakBytes }
      else s.tagStats
    { s with
      records := records2,
      totalBytes := totalBytes2,
      activeCount := w64add s.activeCount 1,
      tagStats := tagStats2,
      peakBytes := if s.peakBytes < totalBytes2 then totalBytes2 else s.peakBytes }
  | none => { s with droppedAllocations := w64add s.droppedAllocations 1 }

/-- `LightweightTracker::RecordDeallocation(ptr)`.  Sequentially the clearing
CAS always succeeds once the matching slot is found.  The per-tag
`currentBytes` subtraction is clamped at zero, exactly as in the source. -/
def RecordDeallocation (s : LightweightTracker) (ptr : Nat) : LightweightTracker :=
  if ptr = 0 ∨ s.hasRecords = false ∨ s.enabled = false then s else
  match probeFind s.records ptr (hashIdx ptr) 0 LightweightConfig.MaxProbes with
  | some j =>
    let size := (s.records j).size
    let tag := (s.records j).tag
    let records2 := updateFn s.records j { s.records j with address := 0 }
    let tagStats2 :=
      if tag < LightweightConfig.MaxTags then
        let st := s.tagStats tag
        updateFn s.tagStats tag
          { st with
            currentBytes := if size ≤ st.currentBytes then w64sub st.currentBytes size else 0,
            freeCount := w64add st.freeCount 1 }
      else s.tagStats
    { s with
      records := records2,
      totalBytes := w64sub s.totalBytes size,
      activeCount := w64sub s.activeCount 1,
      tagStats := tagStats2 }
  | none => s

-- ============================================================================
-- Statistics reads
-- ============================================================================

/-- `GetTotalBytes()`. -/
def GetTotalBytes (s : LightweightTracker) : Nat := s.totalBytes

/-- `GetPeakBytes()`. -/
def GetPeakBytes (s : LightweightTracker) : Nat := s.peakBytes

/-- `GetActiveCount()`. -/
def GetActiveCount (s : LightweightTracker) : Nat := s.activeCount

/-- `GetTagBytes(tag)`. -/
def GetTagBytes (s : LightweightTracker) (tag : Nat) : Nat :=
  if LightweightConfig.MaxTags ≤ tag then 0 else (s.tagStats tag).currentBytes

/-- `GetTagAllocCount(tag)`. -/
def GetTagAllocCount (s : LightweightTracker) (tag : Nat) : Nat :=
  if LightweightConfig.MaxTags ≤ tag then 0 else (s.tagStats tag).allocCount

/-- `GetDroppedCount()`. -/
def GetDroppedCount (s : LightweightTracker) : Nat := s.droppedAllocations

-- ============================================================================
-- Tag management
-- ============================================================================

/-- Name truncation in `RegisterTag`: at most `MaxTagNameLength - 1`
characters are copied before the terminator is placed. -/
def truncName (n : String) : String :=
  String.mk (n.data.take (LightweightConfig.MaxTagNameLength - 1))

/-- `LightweightTracker::RegisterTag(id, name)`.  `nameNull` models a null
`name` pointer.  Sequentially the `registered` CAS succeeds exactly when the
flag is still false: first writer wins. -/
def RegisterTag (s : LightweightTracker) (id : Nat) (nameNull : Bool) (name : String) :
    LightweightTracker :=
  if LightweightConfig.MaxTags ≤ id ∨ nameNull = true then s
  else if (s.tagStats id).registered = true then s
  else
    { s with
      tagStats := updateFn s.tagStats id
        { s.tagStats id with registered := true, name := truncName name } }

/-- `GetTagName(id)`. -/
def GetTagName (s : LightweightTracker) (id : Nat) : String :=
  if LightweightConfig.MaxTags ≤ id then "Unknown"
  else if (s.tagStats id).registered = false then "Unregistered"
  else (s.tagStats id).name

-- ============================================================================
-- Construction (the private constructor)
-- ============================================================================

/-- The member-initialized state before the constructor body runs: all
counters zero, `m_enabled{true}`, slots zeroed (`memset`).  `allocOk` models
whether the OS buffer acquisition succeeded. -/
def initialTracker (allocOk : Bool) : LightweightTracker :=
  { records := fun _ => emptyRecord,
    tagStats := fun _ => emptyTagStats,
    totalBytes := 0, peakBytes := 0, activeCount := 0, droppedAllocations := 0,
    enabled := true, hasRecords := allocOk }

/-- The default tag registrations performed by the constructor body, in
source order. -/
def defaultTags : List (Nat × String) :=
  [(0, "General"), (1, "Graphics"), (2, "Audio"), (3, "Physics"), (4, "AI"),
   (5, "Network"), (6, "UI"), (7, "Gameplay"), (8, "Resource"), (9, "Temporary")]

/-- `LightweightTracker::LightweightTracker()`. -/
def constructTracker (allocOk : Bool) : LightweightTracker :=
  defaultTags.foldl (fun s p => RegisterTag s p.1 false p.2) (initialTracker allocOk)

/-- A freshly constructed tracker whose record buffer allocation succeeded. -/
def freshTracker : LightweightTracker := constructTracker true

/-- A tracker state whose slots `0 .. MaxProbes - 1` are all occupied, so that
an insertion probing from bucket 0 exhausts its probe budget. -/
def satState : LightweightTracker :=
  { freshTracker with
    records := fun i =>
      if i < LightweightConfig.MaxProbes then
        { address := 1, size := 0, tag := 0, flags := 0, reserved := 0 }
      else emptyRecord }

-- ============================================================================
-- Sequential runs of hot-path calls
-- ============================================================================

/-- One hot-path call. -/
inductive TrackerOp where
  | alloc (ptr size tag flags : Nat)
  | dealloc (ptr : Nat)

/-- Apply one call to the tracker state. -/
def applyOp (s : LightweightTracker) : TrackerOp → LightweightTracker
  | TrackerOp.alloc p z t f => RecordAllocation s p z t f
  | TrackerOp.dealloc p => RecordDeallocation s p

/-- Run a sequential sequence of calls. -/
def runOps (s : LightweightTracker) (ops : List TrackerOp) : LightweightTracker :=
  ops.foldl applyOp s

/-- Whether a call, issued in state `s`, succeeds: an allocation succeeds when
it claims a slot (otherwise it is dropped or skipped by the guard), a
deallocation succeeds when it finds and clears the record. -/
def opSucceeds (s : LightweightTracker) : TrackerOp → Bool
  | TrackerOp.alloc p _ _ _ =>
    if p = 0 ∨ s.hasRecords = false ∨ s.enabled = false then false
    else (probeClaim s.records (hashIdx p) 0 LightweightConfig.MaxProbes).isSome
  | TrackerOp.dealloc p =>
    if p = 0 ∨ s.hasRecords = false ∨ s.enabled = false then false
    else (probeFind s.records p (hashIdx p) 0 LightweightConfig.MaxProbes).isSome

/-- Count of (successful inserts, successful erases) along a run. -/
def succCounts : LightweightTracker → List TrackerOp → Nat × Nat
  | _, [] => (0, 0)
  | s, op :: rest =>
    let r := succCounts (applyOp s op) rest
    if opSucceeds s op then
      match op with
      | TrackerOp.alloc _ _ _ _ => (r.1 + 1, r.2)
      | TrackerOp.dealloc _ => (r.1, r.2 + 1)
    else r

/-- Every call of the sequence succeeds. -/
def allSucceed : LightweightTracker → List TrackerOp → Bool
  | _, [] => true
  | s, op :: rest => opSucceeds s op && allSucceed (applyOp s op) rest

/-- A pure allocation phase: one `RecordAllocation(ptrᵢ, sizeᵢ, 0, 0)` per
pair. -/
def allocOps (l : List (Nat × Nat)) : List TrackerOp :=
  l.map (fun p => TrackerOp.alloc p.1 p.2 0 0)

/-- A pure deallocation phase: one `RecordDeallocation(ptrᵢ)` per address. -/
def deallocOps (ds : List Nat) : List TrackerOp :=
  ds.map TrackerOp.dealloc

-- ============================================================================
-- Occupancy view of the record table
-- ============================================================================

/-- Indices of table slots whose `address` field is non-empty. -/
def occupiedOf (records : Nat → CompactRecord) : Finset Nat :=
  (Finset.range LightweightConfig.MaxAllocations).filter
    (fun i => (records i).address ≠ 0)

/-- Sum of `size` over all slots with non-empty `address`, as a function of
the raw table. -/
def liveBytesOf (records : Nat → CompactRecord) : Nat :=
  (occupiedOf records).sum (fun i => (records i).size)

/-- Number of slots with non-empty `address`. -/
def occupiedCount (s : LightweightTracker) : Nat := (occupiedOf s.records).card

/-- Sum of `size` over all slots with non-empty `address`. -/
def liveBytes (s : LightweightTracker) : Nat := liveBytesOf s.records

/-- The sequential state invariant of the tracker, established by the
constructor and preserved by every hot-path call. -/
def TrackerInv (s : LightweightTracker) : Prop :=
  s.activeCount = occupiedCount s ∧
  s.totalBytes = liveBytes s ∧
  (∀ i, (s.records i).size < 4294967296) ∧
  s.totalBytes ≤ s.peakBytes ∧
  s.peakBytes < W64 ∧
  s.droppedAllocations < W64

-- ============================================================================
-- Report generation (GenerateReport)
-- ============================================================================

/-- Caller-supplied report buffer plus the `written` cursor of
`GenerateReport`. -/
structure ReportBuf where
  buf : Nat → Char
  written : Nat

/-- The character-emission loops of `GenerateReport` (`append` and the
digit-emission loop of `appendNum`): write the characters in order while
`written < bufferSize - 1`. -/
def writeChars (cap : Nat) (b : ReportBuf) : List Char → ReportBuf
  | [] => b
  | c :: cs =>
    if b.written < cap - 1 then
      writeChars cap { buf := updateFn b.buf b.written c, written := b.written + 1 } cs
    else b

/-- The digit buffer built by `appendNum`: decimal digits of `num`, least
significant first, at most 31 of them (`while (num > 0 && i < 31)`). -/
def numDigitsRev : Nat → Nat → List Char
  | _, 0 => []
  | n, fuel + 1 =>
    if n = 0 then []
    else Char.ofNat (48 + n % 10) :: numDigitsRev (n / 10) fuel

/-- `appendNum` of `GenerateReport`: build the digit buffer (`'0'` when the
number is zero), then emit it in reverse order, bounded by the remaining
space. -/
def appendNum (cap : Nat) (b : ReportBuf) (num : Nat) : ReportBuf :=
  let temp := if num = 0 then ['0'] else numDigitsRev num 31
  writeChars cap b temp.reverse

/-- One iteration of the per-tag statistics loop in `GenerateReport`. -/
def reportTagLine (s : LightweightTracker) (cap : Nat) (b : ReportBuf) (i : Nat) :
    ReportBuf :=
  let stats := s.tagStats i
  if 0 < stats.allocCount then
    let b := writeChars cap b "[".data
    let b := if stats.registered = true then writeChars cap b stats.name.data
             else appendNum cap (writeChars cap b "Tag ".data) i
    let b := writeChars cap b "] ".data
    let b := writeChars cap b "Current: ".data
    let b := appendNum cap b stats.currentBytes
    let b := writeChars cap b " bytes, ".data
    let b := writeChars cap b "Peak: ".data
    let b := appendNum cap b stats.peakBytes
    let b := writeChars cap b " bytes, ".data
    let b := writeChars cap b "Allocs: ".data
    let b := appendNum cap b stats.allocCount
    let b := writeChars cap b ", ".data
    let b := writeChars cap b "Frees: ".data
    let b := appendNum cap b stats.freeCount
    writeChars cap b "\n".data
  else b

/-- The straight-line body of `GenerateReport` before the terminator store:
header, global counters, and the per-tag loop. -/
def reportBody (s : LightweightTracker) (cap : Nat) (b : ReportBuf) : ReportBuf :=
  let b := writeChars cap b "=== YU Lightweight Memory Report ===\n".data
  let b := writeChars cap b "Total: ".data
  let b := appendNum cap b s.totalBytes
  let b := writeChars cap b " bytes\n".data
  let b := writeChars cap b "Peak:  ".data
  let b := appendNum cap b s.peakBytes
  let b := writeChars cap b " bytes\n".data
  let b := writeChars cap b "Active: ".data
  let b := appendNum cap b s.activeCount
  let b := writeChars cap b " allocations\n".data
  let b := writeChars cap b "Dropped: ".data
  let b := appendNum cap b s.droppedAllocations
  let b := writeChars cap b " (table full)\n\n".data
  let b := writeChars cap b "--- Tag Statistics ---\n".data
  (List.range LightweightConfig.MaxTags).foldl (reportTagLine s cap) b

/-- `LightweightTracker::GenerateReport(buffer, bufferSize)`.  `bufNull`
models a null `buffer` pointer (`!buffer || bufferSize == 0` returns 0 with
the buffer untouched).  Otherwise the report text is emitted, the NUL
terminator is stored at index `written`, and `written` (the C++ return
value, excluding the terminator) is returned. -/
def GenerateReport (s : LightweightTracker) (bufNull : Bool) (buf0 : Nat → Char)
    (cap : Nat) : ReportBuf :=
  if bufNull = true ∨ cap = 0 then { buf := buf0, written := 0 }
  else
    let b := reportBody s cap { buf := buf0, written := 0 }
    { buf := updateFn b.buf b.written (Char.ofNat 0), written := b.written }

/-- Safety invariant of the report emission: the cursor stays at most
`cap - 1` and nothing at index `cap` or beyond is modified. -/
def ReportInv (cap : Nat) (buf0 : Nat → Char) (b : ReportBuf) : Prop :=
  b.written ≤ cap - 1 ∧ ∀ i, cap ≤ i → b.buf i = buf0 i


-- ============================================================================
-- Arithmetic helper lemmas
-- ============================================================================

theorem w64add_eq {x y : Nat} (h : x + y < W64) : w64add x y = x + y :=
  Nat.mod_eq_of_lt h

theorem w64add_lt (x y : Nat) : w64add x y < W64 :=
  Nat.mod_lt _ (by norm_num [W64])

theorem w64sub_eq {x y : Nat} (hx : x < W64) (hyx : y ≤ x) : w64sub x y = x - y := by
  unfold w64sub
  have hy : y < W64 := lt_of_le_of_lt hyx hx
  rw [Nat.mod_eq_of_lt hy]
  have h1 : x + (W64 - y) = (x - y) + W64 := by omega
  rw [h1, Nat.add_mod_right]
  exact Nat.mod_eq_of_lt (by omega)

-- ============================================================================
-- Probe loop lemmas
-- ============================================================================

theorem probeClaim_some {records : Nat → CompactRecord} {idx p fuel j : Nat}
    (h : probeClaim records idx p fuel = some j) :
    (records j).address = 0 ∧ j < LightweightConfig.MaxAllocations := by
  induction fuel generalizing p with
  | zero => simp [probeClaim] at h
  | succ fuel ih =>
    rw [probeClaim] at h
    by_cases hc : (records ((idx + p) % LightweightConfig.MaxAllocations)).address = 0
    · simp only [hc, if_pos] at h
      cases h
      exact ⟨hc, Nat.mod_lt _ (by norm_num [LightweightConfig.MaxAllocations])⟩
    · simp only [hc, if_neg, if_false] at h
      exact ih h

theorem probeClaim_none_of_occupied {records : Nat → CompactRecord} {idx : Nat} :
    ∀ fuel p,
      (∀ q, p ≤ q → q < p + fuel →
        (records ((idx + q) % LightweightConfig.MaxAllocations)).address ≠ 0) →
      probeClaim records idx p fuel = none := by
  intro fuel
  induction fuel with
  | zero => intro p _; rfl
  | succ fuel ih =>
    intro p h
    rw [probeClaim]
    rw [if_neg (h p le_rfl (by omega))]
    exact ih (p + 1) (fun q hq1 hq2 => h q (by omega) (by omega))

theorem probeFind_some {records : Nat → CompactRecord} {ptr idx p fuel j : Nat}
    (h : probeFind records ptr idx p fuel = some j) :
    (records j).address = ptr ∧ j < LightweightConfig.MaxAllocations := by
  induction fuel generalizing p with
  | zero => simp [probeFind] at h
  | succ fuel ih =>
    rw [probeFind] at h
    by_cases hc : (records ((idx + p) % LightweightConfig.MaxAllocations)).address = ptr
    · simp only [hc, if_pos] at h
      cases h
      exact ⟨hc, Nat.mod_lt _ (by norm_num [LightweightConfig.MaxAllocations])⟩
    · simp only [hc, if_neg, if_false] at h
      by_cases h0 : (records ((idx + p) % LightweightConfig.MaxAllocations)).address = 0
      · simp [h0] at h
      · simp only [h0, if_neg, if_false] at h
        exact ih h

-- ============================================================================
-- Occupancy lemmas
-- ============================================================================

theorem mem_occupiedOf {records : Nat → CompactRecord} {i : Nat} :
    i ∈ occupiedOf records ↔
      i < LightweightConfig.MaxAllocations ∧ (records i).address ≠ 0 := by
  simp [occupiedOf, Finset.mem_filter, Finset.mem_range]

theorem occupiedOf_claim {records : Nat → CompactRecord} {j : Nat} {rec : CompactRecord}
    (hj : j < LightweightConfig.MaxAllocations) (hnew : rec.address ≠ 0) :
    occupiedOf (updateFn records j rec) = insert j (occupiedOf records) := by
  ext i
  by_cases hij : i = j
  · subst hij
    simp [mem_occupiedOf, updateFn, hj, hnew]
  · simp [mem_occupiedOf, updateFn, hij, Finset.mem_insert]

theorem occupiedOf_release {records : Nat → CompactRecord} {j : Nat} {rec : CompactRecord}
    (hrec : rec.address = 0) :
    occupiedOf (updateFn records j rec) = (occupiedOf records).erase j := by
  ext i
  by_cases hij : i = j
  · subst hij
    simp [mem_occupiedOf, updateFn, hrec]
  · simp [mem_occupiedOf, updateFn, hij, Finset.mem_erase]

theorem card_occupiedOf_claim {records : Nat → CompactRecord} {j : Nat} {rec : CompactRecord}
    (hj : j < LightweightConfig.MaxAllocations) (h0 : (records j).address = 0)
    (hnew : rec.address ≠ 0) :
    (occupiedOf (updateFn records j rec)).card = (occupiedOf records).card + 1 := by
  rw [occupiedOf_claim hj hnew]
  exact Finset.card_insert_of_not_mem (by simp [mem_occupiedOf, h0])

theorem card_occupiedOf_le (records : Nat → CompactRecord) :
    (occupiedOf records).card ≤ LightweightConfig.MaxAllocations := by
  calc (occupiedOf records).card
      ≤ (Finset.range LightweightConfig.MaxAllocations).card :=
        Finset.card_filter_le _ _
    _ = LightweightConfig.MaxAllocations := Finset.card_range _

attribute [irreducible] occupiedOf

theorem liveBytesOf_claim {records : Nat → CompactRecord} {j : Nat} {rec : CompactRecord}
    (hj : j < LightweightConfig.MaxAllocations) (h0 : (records j).address = 0)
    (hnew : rec.address ≠ 0) :
    liveBytesOf (updateFn records j rec) = rec.size + liveBytesOf records := by
  have hnotmem : j ∉ occupiedOf records := by simp [mem_occupiedOf, h0]
  rw [liveBytesOf, occupiedOf_claim hj hnew, Finset.sum_insert hnotmem]
  congr 1
  · simp [updateFn]
  · refine Finset.sum_congr rfl (fun i hi => ?_)
    have hij : i ≠ j := fun h => hnotmem (h ▸ hi)
    simp [updateFn, hij]

theorem card_occupiedOf_release {records : Nat → CompactRecord} {j : Nat} {rec : CompactRecord}
    (hmem : j ∈ occupiedOf records) (hrec : rec.address = 0) :
    (occupiedOf (updateFn records j rec)).card + 1 = (occupiedOf records).card := by
  rw [occupiedOf_release hrec]
  exact Finset.card_erase_add_one hmem

theorem liveBytesOf_release {records : Nat → CompactRecord} {j : Nat} {rec : CompactRecord}
    (hmem : j ∈ occupiedOf records) (hrec : rec.address = 0) :
    liveBytesOf (updateFn records j rec) + (records j).size = liveBytesOf records := by
  rw [liveBytesOf, occupiedOf_release hrec]
  have hcong : ((occupiedOf records).erase j).sum (fun i => ((updateFn records j rec) i).size) =
      ((occupiedOf records).erase j).sum (fun i => (records i).size) := by
    refine Finset.sum_congr rfl (fun i hi => ?_)
    have hij : i ≠ j := (Finset.mem_erase.mp hi).1
    simp [updateFn, hij]
  rw [hcong]
  exact Finset.sum_erase_add _ _ hmem

theorem sizeAt_le_liveBytesOf {records : Nat → CompactRecord} {j : Nat}
    (hmem : j ∈ occupiedOf records) :
    (records j).size ≤ liveBytesOf records := by
  rw [liveBytesOf]
  exact Finset.single_le_sum (f := fun i => (records i).size) (fun i _ => Nat.zero_le _) hmem

theorem liveBytesOf_lt {records : Nat → CompactRecord}
    (hs : ∀ i, (records i).size < 4294967296) :
    liveBytesOf records < W64 := by
  have h1 : liveBytesOf records ≤ (occupiedOf records).card * 4294967295 := by
    have := Finset.sum_le_card_nsmul (occupiedOf records)
      (fun i => (records i).size) 4294967295
      (fun i _ => by show (records i).size ≤ 4294967295; have := hs i; omega)
    simpa [smul_eq_mul] using this
  have h2 := card_occupiedOf_le records
  have : liveBytesOf records ≤ LightweightConfig.MaxAllocations * 4294967295 :=
    le_trans h1 (Nat.mul_le_mul_right _ h2)
  calc liveBytesOf records ≤ LightweightConfig.MaxAllocations * 4294967295 := this
    _ < W64 := by norm_num [LightweightConfig.MaxAllocations, W64]

-- ============================================================================
-- Outcome characterizations of the hot-path operations
-- ============================================================================

theorem RecordAllocation_guard {s : LightweightTracker} {ptr size tag flags : Nat}
    (h : ptr = 0 ∨ s.hasRecords = false ∨ s.enabled = false) :
    RecordAllocation s ptr size tag flags = s := by
  rw [RecordAllocation, if_pos h]

theorem RecordAllocation_drop {s : LightweightTracker} {ptr size tag flags : Nat}
    (hg : ¬(ptr = 0 ∨ s.hasRecords = false ∨ s.enabled = false))
    (hc : probeClaim s.records (hashIdx ptr) 0 LightweightConfig.MaxProbes = none) :
    RecordAllocation s ptr size tag flags =
      { s with droppedAllocations := w64add s.droppedAllocations 1 } := by
  rw [RecordAllocation, if_neg hg]
  simp only [hc]

theorem RecordAllocation_claim (s : LightweightTracker) (ptr size tag flags j : Nat)
    (hg : ¬(ptr = 0 ∨ s.hasRecords = false ∨ s.enabled = false))
    (hc : probeClaim s.records (hashIdx ptr) 0 LightweightConfig.MaxProbes = some j) :
    ∃ rec ts,
      RecordAllocation s ptr size tag flags =
        { s with
          records := updateFn s.records j rec,
          tagStats := ts,
          totalBytes := w64add s.totalBytes (size % 4294967296),
          activeCount := w64add s.activeCount 1,
          peakBytes :=
            if s.peakBytes < w64add s.totalBytes (size % 4294967296) then
              w64add s.totalBytes (size % 4294967296)
            else s.peakBytes } ∧
      rec.address = ptr ∧ rec.size = size % 4294967296 := by
  rw [RecordAllocation, if_neg hg]
  simp only [hc]
  exact ⟨_, _, rfl, rfl, rfl⟩

theorem RecordDeallocation_guard {s : LightweightTracker} {ptr : Nat}
    (h : ptr = 0 ∨ s.hasRecords = false ∨ s.enabled = false) :
    RecordDeallocation s ptr = s := by
  rw [RecordDeallocation, if_pos h]

theorem RecordDeallocation_notfound {s : LightweightTracker} {ptr : Nat}
    (hg : ¬(ptr = 0 ∨ s.hasRecords = false ∨ s.enabled = false))
    (hc : probeFind s.records ptr (hashIdx ptr) 0 LightweightConfig.MaxProbes = none) :
    RecordDeallocation s ptr = s := by
  rw [RecordDeallocation, if_neg hg]
  simp only [hc]

theorem RecordDeallocation_release (s : LightweightTracker) (ptr j : Nat)
    (hg : ¬(ptr = 0 ∨ s.hasRecords = false ∨ s.enabled = false))
    (hc : probeFind s.records ptr (hashIdx ptr) 0 LightweightConfig.MaxProbes = some j) :
    ∃ ts,
      RecordDeallocation s ptr =
        { s with
          records := updateFn s.records j { s.records j with address := 0 },
          tagStats := ts,
          totalBytes := w64sub s.totalBytes (s.records j).size,
          activeCount := w64sub s.activeCount 1 } := by
  rw [RecordDeallocation, if_neg hg]
  simp only [hc]
  exact ⟨_, rfl⟩

-- ============================================================================
-- Invariant preservation
-- ============================================================================

theorem maxAllocations_lt_W64 : LightweightConfig.MaxAllocations + 1 < W64 := by
  norm_num [LightweightConfig.MaxAllocations, W64]

theorem inv_RecordAllocation {s : LightweightTracker} (hInv : TrackerInv s)
    (ptr size tag flags : Nat) :
    TrackerInv (RecordAllocation s ptr size tag flags) := by
  obtain ⟨hac, htb, hsz, hpk, hpw, hdw⟩ := hInv
  have hac2 : s.activeCount = (occupiedOf s.records).card := hac
  have htb2 : s.totalBytes = liveBytesOf s.records := htb
  by_cases hg : ptr = 0 ∨ s.hasRecords = false ∨ s.enabled = false
  · rw [RecordAllocation_guard hg]
    exact ⟨hac, htb, hsz, hpk, hpw, hdw⟩
  · cases hc : probeClaim s.records (hashIdx ptr) 0 LightweightConfig.MaxProbes with
    | none =>
      rw [RecordAllocation_drop hg hc]
      exact ⟨hac, htb, hsz, hpk, hpw, w64add_lt _ _⟩
    | some j =>
      obtain ⟨rec, ts, heq, haddr, hsize⟩ :=
        RecordAllocation_claim s ptr size tag flags j hg hc
      have hptr : ptr ≠ 0 := fun h => hg (Or.inl h)
      have hrecaddr : rec.address ≠ 0 := by rw [haddr]; exact hptr
      obtain ⟨h0, hj⟩ := probeClaim_some hc
      have hsz2 : ∀ i, ((updateFn s.records j rec) i).size < 4294967296 := by
        intro i
        by_cases hij : i = j
        · subst hij
          simp [updateFn, hsize]
          omega
        · simp only [updateFn, if_neg hij]
          exact hsz i
      have hlive : liveBytesOf (updateFn s.records j rec) = rec.size + liveBytesOf s.records :=
        liveBytesOf_claim hj h0 hrecaddr
      have hlivelt : liveBytesOf (updateFn s.records j rec) < W64 := liveBytesOf_lt hsz2
      have hbound : s.totalBytes + size % 4294967296 < W64 := by
        rw [htb2, ← hsize, Nat.add_comm, ← hlive]
        exact hlivelt
      have hlive2 : s.totalBytes + size % 4294967296 = liveBytesOf (updateFn s.records j rec) := by
        rw [htb2, ← hsize, Nat.add_comm, ← hlive]
      have hcard : (occupiedOf (updateFn s.records j rec)).card =
          (occupiedOf s.records).card + 1 := card_occupiedOf_claim hj h0 hrecaddr
      have hcardle := card_occupiedOf_le s.records
      have hmw := maxAllocations_lt_W64
      have hasz : s.activeCount + 1 < W64 := by omega
      rw [heq]
      unfold TrackerInv occupiedCount liveBytes liveBytesOf
      dsimp only
      rw [← liveBytesOf]
      refine ⟨?_, ?_, hsz2, ?_, ?_, hdw⟩
      · rw [w64add_eq hasz, hcard, hac2]
      · rw [w64add_eq hbound]
        exact hlive2
      · rw [w64add_eq hbound]
        split <;> omega
      · rw [w64add_eq hbound]
        split <;> omega

theorem inv_RecordDeallocation {s : LightweightTracker} (hInv : TrackerInv s)
    (ptr : Nat) :
    TrackerInv (RecordDeallocation s ptr) := by
  obtain ⟨hac, htb, hsz, hpk, hpw, hdw⟩ := hInv
  have hac2 : s.activeCount = (occupiedOf s.records).card := hac
  have htb2 : s.totalBytes = liveBytesOf s.records := htb
  by_cases hg : ptr = 0 ∨ s.hasRecords = false ∨ s.enabled = false
  · rw [RecordDeallocation_guard hg]
    exact ⟨hac, htb, hsz, hpk, hpw, hdw⟩
  · cases hc : probeFind s.records ptr (hashIdx ptr) 0 LightweightConfig.MaxProbes with
    | none =>
      rw [RecordDeallocation_notfound hg hc]
      exact ⟨hac, htb, hsz, hpk, hpw, hdw⟩
    | some j =>
      obtain ⟨ts, heq⟩ := RecordDeallocation_release s ptr j hg hc
      have hptr : ptr ≠ 0 := fun h => hg (Or.inl h)
      obtain ⟨haddr, hj⟩ := probeFind_some hc
      have hmem : j ∈ occupiedOf s.records :=
        mem_occupiedOf.mpr ⟨hj, by rw [haddr]; exact hptr⟩
      have hlive : liveBytesOf (updateFn s.records j { s.records j with address := 0 }) +
          (s.records j).size = liveBytesOf s.records :=
        liveBytesOf_release hmem rfl
      have hcard : (occupiedOf (updateFn s.records j { s.records j with address := 0 })).card + 1 =
          (occupiedOf s.records).card :=
        card_occupiedOf_release hmem rfl
      have hszle : (s.records j).size ≤ s.totalBytes := by
        rw [htb2]
        exact sizeAt_le_liveBytesOf hmem
      have htblt : s.totalBytes < W64 := lt_of_le_of_lt hpk hpw
      have hsz2 : ∀ i,
          ((updateFn s.records j { s.records j with address := 0 }) i).size < 4294967296 := by
        intro i
        by_cases hij : i = j
        · subst hij
          simp [updateFn]
          exact hsz _
        · simp only [updateFn, if_neg hij]
          exact hsz i
      have hactpos : 1 ≤ s.activeCount := by
        have : 0 < (occupiedOf s.records).card := Finset.card_pos.mpr ⟨j, hmem⟩
        omega
      have hcardle := card_occupiedOf_le s.records
      have hmw := maxAllocations_lt_W64
      have hactlt : s.activeCount < W64 := by omega
      rw [heq]
      unfold TrackerInv occupiedCount liveBytes liveBytesOf
      dsimp only
      rw [← liveBytesOf]
      dsimp only at hlive hcard hsz2
      refine ⟨?_, ?_, hsz2, ?_, hpw, hdw⟩
      · rw [w64sub_eq hactlt hactpos, hac2]
        omega
      · rw [w64sub_eq htblt hszle, htb2]
        omega
      · rw [w64sub_eq htblt hszle]
        omega

theorem inv_applyOp {s : LightweightTracker} (hInv : TrackerInv s) (op : TrackerOp) :
    TrackerInv (applyOp s op) := by
  cases op with
  | alloc p z t f => exact inv_RecordAllocation hInv p z t f
  | dealloc p => exact inv_RecordDeallocation hInv p

theorem inv_runOps {s : LightweightTracker} (hInv : TrackerInv s) (ops : List TrackerOp) :
    TrackerInv (runOps s ops) := by
  induction ops generalizing s with
  | nil => exact hInv
  | cons op rest ih => exact ih (inv_applyOp hInv op)

-- ============================================================================
-- Facts about the freshly constructed tracker
-- ============================================================================

theorem freshTracker_records : freshTracker.records = fun _ => emptyRecord := rfl

theorem freshTracker_activeCount : freshTracker.activeCount = 0 := rfl

theorem freshTracker_totalBytes : freshTracker.totalBytes = 0 := rfl

theorem freshTracker_peakBytes : freshTracker.peakBytes = 0 := rfl

theorem freshTracker_dropped : freshTracker.droppedAllocations = 0 := rfl

theorem occupiedOf_empty : occupiedOf (fun _ => emptyRecord) = ∅ := by
  ext i
  simp [mem_occupiedOf, emptyRecord]

theorem inv_freshTracker : TrackerInv freshTracker := by
  refine ⟨?_, ?_, ?_, ?_, ?_, ?_⟩
  · rw [freshTracker_activeCount]
    unfold occupiedCount
    rw [freshTracker_records, occupiedOf_empty]
    simp
  · rw [freshTracker_totalBytes]
    unfold liveBytes liveBytesOf
    rw [freshTracker_records, occupiedOf_empty]
    simp
  · intro i
    rw [freshTracker_records]
    norm_num [emptyRecord]
  · rw [freshTracker_totalBytes]
    exact Nat.zero_le _
  · rw [freshTracker_peakBytes]
    norm_num [W64]
  · rw [freshTracker_dropped]
    norm_num [W64]

-- ============================================================================
-- Per-call counter steps
-- ============================================================================

theorem alloc_succ_counters {s : LightweightTracker} {p z t f : Nat} (hInv : TrackerInv s)
    (h : opSucceeds s (TrackerOp.alloc p z t f) = true) :
    (RecordAllocation s p z t f).activeCount = s.activeCount + 1 ∧
    (RecordAllocation s p z t f).totalBytes = s.totalBytes + z % 4294967296 := by
  obtain ⟨hac, htb, hsz, hpk, hpw, hdw⟩ := hInv
  have hac2 : s.activeCount = (occupiedOf s.records).card := hac
  have htb2 : s.totalBytes = liveBytesOf s.records := htb
  simp only [opSucceeds] at h
  by_cases hg : p = 0 ∨ s.hasRecords = false ∨ s.enabled = false
  · rw [if_pos hg] at h
    exact absurd h (by simp)
  · rw [if_neg hg] at h
    obtain ⟨j, hc⟩ := Option.isSome_iff_exists.mp h
    obtain ⟨rec, ts, heq, haddr, hsize⟩ := RecordAllocation_claim s p z t f j hg hc
    have hptr : p ≠ 0 := fun hh => hg (Or.inl hh)
    have hrecaddr : rec.address ≠ 0 := by rw [haddr]; exact hptr
    obtain ⟨h0, hj⟩ := probeClaim_some hc
    have hsz2 : ∀ i, ((updateFn s.records j rec) i).size < 4294967296 := by
      intro i
      by_cases hij : i = j
      · subst hij
        simp [updateFn, hsize]
        omega
      · simp only [updateFn, if_neg hij]
        exact hsz i
    have hlive : liveBytesOf (updateFn s.records j rec) = rec.size + liveBytesOf s.records :=
      liveBytesOf_claim hj h0 hrecaddr
    have hlivelt : liveBytesOf (updateFn s.records j rec) < W64 := liveBytesOf_lt hsz2
    have hbound : s.totalBytes + z % 4294967296 < W64 := by
      rw [htb2, ← hsize, Nat.add_comm, ← hlive]
      exact hlivelt
    have hcardle := card_occupiedOf_le s.records
    have hmw := maxAllocations_lt_W64
    have hasz : s.activeCount + 1 < W64 := by omega
    rw [heq]
    exact ⟨w64add_eq hasz, w64add_eq hbound⟩

theorem dealloc_succ_counters {s : LightweightTracker} {p : Nat} (hInv : TrackerInv s)
    (h : opSucceeds s (TrackerOp.dealloc p) = true) :
    (RecordDeallocation s p).activeCount + 1 = s.activeCount := by
  obtain ⟨hac, htb, hsz, hpk, hpw, hdw⟩ := hInv
  have hac2 : s.activeCount = (occupiedOf s.records).card := hac
  simp only [opSucceeds] at h
  by_cases hg : p = 0 ∨ s.hasRecords = false ∨ s.enabled = false
  · rw [if_pos hg] at h
    exact absurd h (by simp)
  · rw [if_neg hg] at h
    obtain ⟨j, hc⟩ := Option.isSome_iff_exists.mp h
    obtain ⟨ts, heq⟩ := RecordDeallocation_release s p j hg hc
    have hptr : p ≠ 0 := fun hh => hg (Or.inl hh)
    obtain ⟨haddr, hj⟩ := probeFind_some hc
    have hmem : j ∈ occupiedOf s.records :=
      mem_occupiedOf.mpr ⟨hj, by rw [haddr]; exact hptr⟩
    have hactpos : 1 ≤ s.activeCount := by
      have : 0 < (occupiedOf s.records).card := Finset.card_pos.mpr ⟨j, hmem⟩
      omega
    have hcardle := card_occupiedOf_le s.records
    have hmw := maxAllocations_lt_W64
    have hactlt : s.activeCount < W64 := by omega
    rw [heq]
    show w64sub s.activeCount 1 + 1 = s.activeCount
    rw [w64sub_eq hactlt hactpos]
    omega

theorem fail_counters {s : LightweightTracker} {op : TrackerOp}
    (h : opSucceeds s op = false) :
    (applyOp s op).activeCount = s.activeCount ∧
    (applyOp s op).totalBytes = s.totalBytes := by
  cases op with
  | alloc p z t f =>
    simp only [opSucceeds] at h
    by_cases hg : p = 0 ∨ s.hasRecords = false ∨ s.enabled = false
    · show (RecordAllocation s p z t f).activeCount = _ ∧ (RecordAllocation s p z t f).totalBytes = _
      rw [RecordAllocation_guard hg]
      exact ⟨rfl, rfl⟩
    · rw [if_neg hg] at h
      cases hc : probeClaim s.records (hashIdx p) 0 LightweightConfig.MaxProbes with
      | some j => rw [hc] at h; simp at h
      | none =>
        show (RecordAllocation s p z t f).activeCount = _ ∧
          (RecordAllocation s p z t f).totalBytes = _
        rw [RecordAllocation_drop hg hc]
        exact ⟨rfl, rfl⟩
  | dealloc p =>
    simp only [opSucceeds] at h
    by_cases hg : p = 0 ∨ s.hasRecords = false ∨ s.enabled = false
    · show (RecordDeallocation s p).activeCount = _ ∧ (RecordDeallocation s p).totalBytes = _
      rw [RecordDeallocation_guard hg]
      exact ⟨rfl, rfl⟩
    · rw [if_neg hg] at h
      cases hc : probeFind s.records p (hashIdx p) 0 LightweightConfig.MaxProbes with
      | some j => rw [hc] at h; simp at h
      | none =>
        show (RecordDeallocation s p).activeCount = _ ∧ (RecordDeallocation s p).totalBytes = _
        rw [RecordDeallocation_notfound hg hc]
        exact ⟨rfl, rfl⟩

-- ============================================================================
-- Counting successful calls along a run
-- ============================================================================

theorem succCounts_cons_alloc_true {s : LightweightTracker} {p z t f : Nat}
    {rest : List TrackerOp} (h : opSucceeds s (TrackerOp.alloc p z t f) = true) :
    succCounts s (TrackerOp.alloc p z t f :: rest) =
      ((succCounts (applyOp s (TrackerOp.alloc p z t f)) rest).1 + 1,
       (succCounts (applyOp s (TrackerOp.alloc p z t f)) rest).2) := by
  simp only [succCounts, h, if_true]

theorem succCounts_cons_dealloc_true {s : LightweightTracker} {p : Nat}
    {rest : List TrackerOp} (h : opSucceeds s (TrackerOp.dealloc p) = true) :
    succCounts s (TrackerOp.dealloc p :: rest) =
      ((succCounts (applyOp s (TrackerOp.dealloc p)) rest).1,
       (succCounts (applyOp s (TrackerOp.dealloc p)) rest).2 + 1) := by
  simp only [succCounts, h, if_true]

theorem succCounts_cons_false {s : LightweightTracker} {op : TrackerOp}
    {rest : List TrackerOp} (h : opSucceeds s op = false) :
    succCounts s (op :: rest) = succCounts (applyOp s op) rest := by
  cases op <;> simp only [succCounts, h] <;> rfl

theorem runOps_cons (s : LightweightTracker) (op : TrackerOp) (rest : List TrackerOp) :
    runOps s (op :: rest) = runOps (applyOp s op) rest := rfl

theorem runOps_activeCount (ops : List TrackerOp) :
    ∀ s : LightweightTracker, TrackerInv s →
      (runOps s ops).activeCount + (succCounts s ops).2 =
        s.activeCount + (succCounts s ops).1 := by
  induction ops with
  | nil => intro s _; rfl
  | cons op rest ih =>
    intro s hInv
    have hInv2 := inv_applyOp hInv op
    have hrest := ih (applyOp s op) hInv2
    rw [runOps_cons]
    by_cases hs : opSucceeds s op = true
    · cases op with
      | alloc p z t f =>
        have hstep : (applyOp s (TrackerOp.alloc p z t f)).activeCount = s.activeCount + 1 :=
          (alloc_succ_counters hInv hs).1
        rw [succCounts_cons_alloc_true hs]
        dsimp only
        omega
      | dealloc p =>
        have hstep : (applyOp s (TrackerOp.dealloc p)).activeCount + 1 = s.activeCount :=
          dealloc_succ_counters hInv hs
        rw [succCounts_cons_dealloc_true hs]
        dsimp only
        omega
    · have hs2 : opSucceeds s op = false := by
        revert hs
        cases opSucceeds s op <;> simp
      have hfail := (fail_counters hs2).1
      rw [succCounts_cons_false hs2]
      omega

-- ============================================================================
-- Peak monotonicity
-- ============================================================================

theorem peak_mono_applyOp (s : LightweightTracker) (op : TrackerOp) :
    s.peakBytes ≤ (applyOp s op).peakBytes := by
  cases op with
  | alloc p z t f =>
    show s.peakBytes ≤ (RecordAllocation s p z t f).peakBytes
    by_cases hg : p = 0 ∨ s.hasRecords = false ∨ s.enabled = false
    · rw [RecordAllocation_guard hg]
    · cases hc : probeClaim s.records (hashIdx p) 0 LightweightConfig.MaxProbes with
      | none =>
        rw [RecordAllocation_drop hg hc]
      | some j =>
        obtain ⟨rec, ts, heq, _, _⟩ := RecordAllocation_claim s p z t f j hg hc
        rw [heq]
        dsimp only
        split <;> omega
  | dealloc p =>
    show s.peakBytes ≤ (RecordDeallocation s p).peakBytes
    by_cases hg : p = 0 ∨ s.hasRecords = false ∨ s.enabled = false
    · rw [RecordDeallocation_guard hg]
    · cases hc : probeFind s.records p (hashIdx p) 0 LightweightConfig.MaxProbes with
      | none =>
        rw [RecordDeallocation_notfound hg hc]
      | some j =>
        obtain ⟨ts, heq⟩ := RecordDeallocation_release s p j hg hc
        rw [heq]

theorem peak_mono_runOps (s : LightweightTracker) (ops : List TrackerOp) :
    s.peakBytes ≤ (runOps s ops).peakBytes := by
  induction ops generalizing s with
  | nil => exact le_rfl
  | cons op rest ih => exact le_trans (peak_mono_applyOp s op) (ih (applyOp s op))

theorem runOps_append (s : LightweightTracker) (a b : List TrackerOp) :
    runOps s (a ++ b) = runOps (runOps s a) b := by
  unfold runOps
  exact List.foldl_append _ _ _ _

-- ============================================================================
-- All-successful phases
-- ============================================================================

theorem allSucceed_cons {s : LightweightTracker} {op : TrackerOp} {rest : List TrackerOp} :
    allSucceed s (op :: rest) = true ↔
      opSucceeds s op = true ∧ allSucceed (applyOp s op) rest = true := by
  simp [allSucceed, Bool.and_eq_true]

theorem allocOps_cons (pr : Nat × Nat) (rest : List (Nat × Nat)) :
    allocOps (pr :: rest) = TrackerOp.alloc pr.1 pr.2 0 0 :: allocOps rest := rfl

theorem deallocOps_cons (d : Nat) (rest : List Nat) :
    deallocOps (d :: rest) = TrackerOp.dealloc d :: deallocOps rest := rfl

theorem succCounts_allocOps (l : List (Nat × Nat)) :
    ∀ s : LightweightTracker, allSucceed s (allocOps l) = true →
      succCounts s (allocOps l) = (l.length, 0) := by
  induction l with
  | nil => intro s _; rfl
  | cons pr rest ih =>
    intro s h
    rw [allocOps_cons] at h ⊢
    obtain ⟨h1, h2⟩ := allSucceed_cons.mp h
    rw [succCounts_cons_alloc_true h1, ih _ h2]
    simp

theorem succCounts_deallocOps (ds : List Nat) :
    ∀ s : LightweightTracker, allSucceed s (deallocOps ds) = true →
      succCounts s (deallocOps ds) = (0, ds.length) := by
  induction ds with
  | nil => intro s _; rfl
  | cons d rest ih =>
    intro s h
    rw [deallocOps_cons] at h ⊢
    obtain ⟨h1, h2⟩ := allSucceed_cons.mp h
    rw [succCounts_cons_dealloc_true h1, ih _ h2]
    simp

theorem totalBytes_runAllocs (l : List (Nat × Nat)) :
    ∀ s : LightweightTracker, TrackerInv s → (∀ pr ∈ l, pr.2 < 4294967296) →
      allSucceed s (allocOps l) = true →
      (runOps s (allocOps l)).totalBytes = s.totalBytes + (l.map Prod.snd).sum := by
  induction l with
  | nil => intro s _ _ _; simp [allocOps, runOps]
  | cons pr rest ih =>
    intro s hInv hsz h
    rw [allocOps_cons] at h
    obtain ⟨h1, h2⟩ := allSucceed_cons.mp h
    have hInv2 := inv_applyOp hInv (TrackerOp.alloc pr.1 pr.2 0 0)
    have hstep : (applyOp s (TrackerOp.alloc pr.1 pr.2 0 0)).totalBytes =
        s.totalBytes + pr.2 % 4294967296 := (alloc_succ_counters hInv h1).2
    have hmod : pr.2 % 4294967296 = pr.2 := Nat.mod_eq_of_lt (hsz pr (by simp))
    rw [allocOps_cons, runOps_cons, ih _ hInv2 (fun q hq => hsz q (by simp [hq])) h2]
    rw [hstep, hmod]
    simp
    omega

theorem totalBytes_of_active_zero {s : LightweightTracker} (hInv : TrackerInv s)
    (h : s.activeCount = 0) : s.totalBytes = 0 := by
  obtain ⟨hac, htb, _, _, _, _⟩ := hInv
  have hac2 : s.activeCount = (occupiedOf s.records).card := hac
  have hcard : (occupiedOf s.records).card = 0 := by omega
  have hempty : occupiedOf s.records = ∅ := Finset.card_eq_zero.mp hcard
  have hlb : liveBytesOf s.records = 0 := by
    rw [liveBytesOf, hempty]
    simp
  have htb2 : s.totalBytes = liveBytesOf s.records := htb
  rw [htb2, hlb]

-- ============================================================================
-- RegisterTag preservation lemmas
-- ============================================================================

theorem RegisterTag_currentBytes (s : LightweightTracker) (id : Nat) (nb : Bool)
    (n : String) (k : Nat) :
    ((RegisterTag s id nb n).tagStats k).currentBytes = (s.tagStats k).currentBytes := by
  unfold RegisterTag
  split
  · rfl
  · split
    · rfl
    · dsimp only
      unfold updateFn
      by_cases hk : k = id
      · subst hk
        simp
      · simp [hk]

theorem RegisterTag_peakBytes (s : LightweightTracker) (id : Nat) (nb : Bool)
    (n : String) (k : Nat) :
    ((RegisterTag s id nb n).tagStats k).peakBytes = (s.tagStats k).peakBytes := by
  unfold RegisterTag
  split
  · rfl
  · split
    · rfl
    · dsimp only
      unfold updateFn
      by_cases hk : k = id
      · subst hk
        simp
      · simp [hk]

theorem RegisterTag_allocCount (s : LightweightTracker) (id : Nat) (nb : Bool)
    (n : String) (k : Nat) :
    ((RegisterTag s id nb n).tagStats k).allocCount = (s.tagStats k).allocCount := by
  unfold RegisterTag
  split
  · rfl
  · split
    · rfl
    · dsimp only
      unfold updateFn
      by_cases hk : k = id
      · subst hk
        simp
      · simp [hk]

theorem RegisterTag_freeCount (s : LightweightTracker) (id : Nat) (nb : Bool)
    (n : String) (k : Nat) :
    ((RegisterTag s id nb n).tagStats k).freeCount = (s.tagStats k).freeCount := by
  unfold RegisterTag
  split
  · rfl
  · split
    · rfl
    · dsimp only
      unfold updateFn
      by_cases hk : k = id
      · subst hk
        simp
      · simp [hk]

theorem freshTracker_tagStats_counters (k : Nat) :
    (freshTracker.tagStats k).currentBytes = 0 ∧
    (freshTracker.tagStats k).peakBytes = 0 ∧
    (freshTracker.tagStats k).allocCount = 0 ∧
    (freshTracker.tagStats k).freeCount = 0 := by
  show ((constructTracker true).tagStats k).currentBytes = 0 ∧
    ((constructTracker true).tagStats k).peakBytes = 0 ∧
    ((constructTracker true).tagStats k).allocCount = 0 ∧
    ((constructTracker true).tagStats k).freeCount = 0
  unfold constructTracker defaultTags
  simp only [List.foldl, RegisterTag_currentBytes, RegisterTag_peakBytes,
    RegisterTag_allocCount, RegisterTag_freeCount]
  exact ⟨rfl, rfl, rfl, rfl⟩

-- ============================================================================
-- Report bounds
-- ============================================================================

theorem writeChars_inv {cap : Nat} {buf0 : Nat → Char} (cs : List Char) :
    ∀ b, ReportInv cap buf0 b → ReportInv cap buf0 (writeChars cap b cs) := by
  induction cs with
  | nil => intro b h; exact h
  | cons c cs ih =>
    intro b h
    rw [writeChars]
    by_cases hlt : b.written < cap - 1
    · rw [if_pos hlt]
      apply ih
      constructor
      · show b.written + 1 ≤ cap - 1
        omega
      · intro i hi
        show updateFn b.buf b.written c i = buf0 i
        unfold updateFn
        have hne : i ≠ b.written := by omega
        rw [if_neg hne]
        exact h.2 i hi
    · rw [if_neg hlt]
      exact h

theorem appendNum_inv {cap : Nat} {buf0 : Nat → Char} (num : Nat) (b : ReportBuf)
    (h : ReportInv cap buf0 b) : ReportInv cap buf0 (appendNum cap b num) := by
  unfold appendNum
  exact writeChars_inv _ b h

theorem reportTagLine_inv {cap : Nat} {buf0 : Nat → Char} (s : LightweightTracker)
    (b : ReportBuf) (i : Nat) (h : ReportInv cap buf0 b) :
    ReportInv cap buf0 (reportTagLine s cap b i) := by
  unfold reportTagLine
  dsimp only
  split
  · apply writeChars_inv
    apply appendNum_inv
    apply writeChars_inv
    apply writeChars_inv
    apply appendNum_inv
    apply writeChars_inv
    apply writeChars_inv
    apply appendNum_inv
    apply writeChars_inv
    apply writeChars_inv
    apply appendNum_inv
    apply writeChars_inv
    apply writeChars_inv
    split
    · apply writeChars_inv
      apply writeChars_inv
      exact h
    · apply appendNum_inv
      apply writeChars_inv
      apply writeChars_inv
      exact h
  · exact h

theorem foldl_reportInv {cap : Nat} {buf0 : Nat → Char} {α : Type}
    (f : ReportBuf → α → ReportBuf)
    (hf : ∀ b x, ReportInv cap buf0 b → ReportInv cap buf0 (f b x)) :
    ∀ (l : List α) (b : ReportBuf), ReportInv cap buf0 b →
      ReportInv cap buf0 (l.foldl f b) := by
  intro l
  induction l with
  | nil => intro b h; exact h
  | cons x xs ih => intro b h; exact ih _ (hf b x h)

theorem reportBody_inv {cap : Nat} {buf0 : Nat → Char} (s : LightweightTracker)
    (b : ReportBuf) (h : ReportInv cap buf0 b) :
    ReportInv cap buf0 (reportBody s cap b) := by
  unfold reportBody
  dsimp only
  apply foldl_reportInv _ (fun b x hh => reportTagLine_inv s b x hh)
  apply writeChars_inv
  apply writeChars_inv
  apply appendNum_inv
  apply writeChars_inv
  apply writeChars_inv
  apply appendNum_inv
  apply writeChars_inv
  apply writeChars_inv
  apply appendNum_inv
  apply writeChars_inv
  apply writeChars_inv
  apply appendNum_inv
  apply writeChars_inv
  apply writeChars_inv
  exact h

-- ============================================================================
-- Claim theorems
-- ============================================================================

/-- Claim C1: for every sequential sequence of `RecordAllocation` and
`RecordDeallocation` calls on a freshly constructed tracker (enabled,
non-null buffer), `GetActiveCount()` afterwards equals the number of
successful inserts minus the number of successful erases, and also equals
the number of slots whose `address` field is non-empty.  Proved for all
sequential call sequences, which subsumes the claim's side conditions
(distinct non-null addresses within capacity times the target load
factor). -/
theorem C1_activeCount_balance (ops : List TrackerOp) :
    GetActiveCount (runOps freshTracker ops) =
      (succCounts freshTracker ops).1 - (succCounts freshTracker ops).2 ∧
    GetActiveCount (runOps freshTracker ops) =
      occupiedCount (runOps freshTracker ops) := by
  have h := runOps_activeCount ops freshTracker inv_freshTracker
  have hinv := inv_runOps inv_freshTracker ops
  rw [freshTracker_activeCount] at h
  constructor
  · show (runOps freshTracker ops).activeCount = _
    omega
  · exact hinv.1

/-- Claim C2 counterexample: two distinct non-null addresses `2^34` and
`2^35` both hash to bucket 0; after inserting both (sizes 16 and 32, both
successfully recorded) and then deallocating all of them in insertion order
(an instance of "any order"), `GetTotalBytes()` is 32, not 0 — erasing `A`
empties slot 0, after which the lookup for `B` stops at that empty slot. -/
theorem C2_counterexample :
    (17179869184 : Nat) ≠ 0 ∧ (34359738368 : Nat) ≠ 0 ∧
    List.Nodup (([(17179869184, 16), (34359738368, 32)] : List (Nat × Nat)).map Prod.fst) ∧
    (16 : Nat) < 4294967296 ∧ (32 : Nat) < 4294967296 ∧
    allSucceed freshTracker (allocOps [(17179869184, 16), (34359738368, 32)]) = true ∧
    [17179869184, 34359738368] =
      (([(17179869184, 16), (34359738368, 32)] : List (Nat × Nat)).map Prod.fst) ∧
    GetTotalBytes (runOps freshTracker
      (allocOps [(17179869184, 16), (34359738368, 32)] ++
        deallocOps [17179869184, 34359738368])) = 32 ∧
    (32 : Nat) ≠ 0 := by
  decide

/-- Claim C2 (amended): after successfully recording `n` distinct non-null
allocations from a fresh tracker, `GetTotalBytes()` equals the sum of their
sizes; and after deallocating all `n` addresses in any order, provided each
`RecordDeallocation` call finds its record (which colliding addresses can
prevent, see the probe-chain regression of C4), `GetTotalBytes()` equals
0. -/
theorem C2_totalBytes (l : List (Nat × Nat)) (ds : List Nat)
    (hptr : ∀ pr ∈ l, pr.1 ≠ 0)
    (hnodup : List.Nodup (l.map Prod.fst))
    (hsz : ∀ pr ∈ l, pr.2 < 4294967296)
    (hallocs : allSucceed freshTracker (allocOps l) = true)
    (hperm : ds.Perm (l.map Prod.fst))
    (hdeallocs : allSucceed (runOps freshTracker (allocOps l)) (deallocOps ds) = true) :
    GetTotalBytes (runOps freshTracker (allocOps l)) = (l.map Prod.snd).sum ∧
    GetTotalBytes (runOps freshTracker (allocOps l ++ deallocOps ds)) = 0 := by
  have hInv1 : TrackerInv (runOps freshTracker (allocOps l)) :=
    inv_runOps inv_freshTracker _
  constructor
  · show (runOps freshTracker (allocOps l)).totalBytes = _
    rw [totalBytes_runAllocs l freshTracker inv_freshTracker hsz hallocs,
      freshTracker_totalBytes]
    omega
  · rw [runOps_append]
    have h1 := runOps_activeCount (allocOps l) freshTracker inv_freshTracker
    rw [succCounts_allocOps l freshTracker hallocs, freshTracker_activeCount] at h1
    have h2 := runOps_activeCount (deallocOps ds) _ hInv1
    rw [succCounts_deallocOps ds _ hdeallocs] at h2
    have hlen := hperm.length_eq
    have hlen2 : (l.map Prod.fst).length = l.length := List.length_map _ _
    have hInv2 : TrackerInv (runOps (runOps freshTracker (allocOps l)) (deallocOps ds)) :=
      inv_runOps hInv1 _
    dsimp only at h1 h2
    have hact0 : (runOps (runOps freshTracker (allocOps l)) (deallocOps ds)).activeCount = 0 := by
      omega
    show (runOps (runOps freshTracker (allocOps l)) (deallocOps ds)).totalBytes = 0
    exact totalBytes_of_active_zero hInv2 hact0

/-- Witness for C2: two addresses in distinct buckets, deallocated in
reverse order; both phases succeed and the totals are the size sum and then
zero. -/
theorem C2_witness :
    GetTotalBytes (runOps freshTracker (allocOps [(4096, 16), (8192, 32)])) =
      (([(4096, 16), (8192, 32)] : List (Nat × Nat)).map Prod.snd).sum ∧
    GetTotalBytes (runOps freshTracker
      (allocOps [(4096, 16), (8192, 32)] ++ deallocOps [8192, 4096])) = 0 := by
  have h := C2_totalBytes [(4096, 16), (8192, 32)] [8192, 4096]
    (by decide) (by decide) (by decide) (by decide) (by decide) (by decide)
  exact ⟨h.1, h.2⟩

/-- Claim C3: across every sequential run from a fresh tracker,
`GetPeakBytes()` never decreases as the sequence is extended, and after any
sequence `GetPeakBytes()` is at least `GetTotalBytes()`. -/
theorem C3_peak_monotone (ops extra : List TrackerOp) :
    GetPeakBytes (runOps freshTracker ops) ≤
      GetPeakBytes (runOps freshTracker (ops ++ extra)) ∧
    GetTotalBytes (runOps freshTracker ops) ≤ GetPeakBytes (runOps freshTracker ops) := by
  constructor
  · show (runOps freshTracker ops).peakBytes ≤ (runOps freshTracker (ops ++ extra)).peakBytes
    rw [runOps_append]
    exact peak_mono_runOps _ extra
  · exact (inv_runOps inv_freshTracker ops).2.2.2.1

/-- Claim C4: probing stops at the first empty slot.  Addresses `A = 2^34`
and `B = 2^35` both hash to bucket 0; inserting `A` then `B` puts `B` in
`A`'s overflow slot (slot 1); erasing `A` empties slot 0; the subsequent
lookup for `B` hits the empty slot 0 and reports not-found, so
`RecordDeallocation(B)` is a complete no-op (the state is unchanged, hence
`totalBytes`/`activeCount` are unchanged) and `B`'s slot stays occupied:
the later-inserted colliding entry is unreachable. -/
theorem C4_probe_chain_break :
    hashIdx 17179869184 = 0 ∧ hashIdx 34359738368 = 0 ∧
    ((RecordAllocation (RecordAllocation freshTracker 17179869184 16 0 0)
        34359738368 32 0 0).records 0).address = 17179869184 ∧
    ((RecordAllocation (RecordAllocation freshTracker 17179869184 16 0 0)
        34359738368 32 0 0).records 1).address = 34359738368 ∧
    ((RecordDeallocation (RecordAllocation (RecordAllocation freshTracker
        17179869184 16 0 0) 34359738368 32 0 0) 17179869184).records 0).address = 0 ∧
    ((RecordDeallocation (RecordAllocation (RecordAllocation freshTracker
        17179869184 16 0 0) 34359738368 32 0 0) 17179869184).records 1).address =
      34359738368 ∧
    probeFind (RecordDeallocation (RecordAllocation (RecordAllocation freshTracker
        17179869184 16 0 0) 34359738368 32 0 0) 17179869184).records
      34359738368 (hashIdx 34359738368) 0 LightweightConfig.MaxProbes = none ∧
    RecordDeallocation (RecordDeallocation (RecordAllocation (RecordAllocation
        freshTracker 17179869184 16 0 0) 34359738368 32 0 0) 17179869184)
      34359738368 =
    RecordDeallocation (RecordAllocation (RecordAllocation freshTracker
        17179869184 16 0 0) 34359738368 32 0 0) 17179869184 := by
  refine ⟨by decide, by decide, by decide, by decide, by decide, by decide, by decide, ?_⟩
  exact RecordDeallocation_notfound (by decide) (by decide)

/-- Claim C5: whenever a `RecordAllocation` call cannot claim any slot
within `MaxProbes` probes (every probed slot already occupied), the call
increments `droppedCount` by exactly 1 and leaves everything else — every
slot, `activeCount`, `totalBytes`, and every per-category counter —
unchanged. -/
theorem C5_saturation_drop (s : LightweightTracker) (ptr size tag flags : Nat)
    (hptr : ptr ≠ 0) (hbuf : s.hasRecords = true) (hen : s.enabled = true)
    (hfull : ∀ p, p < LightweightConfig.MaxProbes →
      (s.records ((hashIdx ptr + p) % LightweightConfig.MaxAllocations)).address ≠ 0)
    (hdrop : s.droppedAllocations + 1 < W64) :
    RecordAllocation s ptr size tag flags =
      { s with droppedAllocations := s.droppedAllocations + 1 } := by
  have hg : ¬(ptr = 0 ∨ s.hasRecords = false ∨ s.enabled = false) := by
    simp [hptr, hbuf, hen]
  have hc : probeClaim s.records (hashIdx ptr) 0 LightweightConfig.MaxProbes = none := by
    apply probeClaim_none_of_occupied
    intro q hq1 hq2
    exact hfull q (by omega)
  rw [RecordAllocation_drop hg hc, w64add_eq hdrop]

/-- Witness for C5: a state with slots `0..63` occupied and a pointer
hashing to bucket 0; the call only bumps the dropped counter. -/
theorem C5_witness :
    RecordAllocation satState 17179869184 8 0 0 =
      { satState with droppedAllocations := satState.droppedAllocations + 1 } :=
  C5_saturation_drop satState 17179869184 8 0 0 (by decide) (by decide) (by decide)
    (by decide) (by decide)

/-- Claim C6: `RecordDeallocation` of a pointer the fresh tracker never saw
(`0xDEAD = 57005`) is a complete no-op, and every counter of the fresh
tracker — global and per-category — is zero, with every slot empty. -/
theorem C6_unknown_pointer_noop :
    RecordDeallocation freshTracker 57005 = freshTracker ∧
    GetTotalBytes freshTracker = 0 ∧ GetPeakBytes freshTracker = 0 ∧
    GetActiveCount freshTracker = 0 ∧ GetDroppedCount freshTracker = 0 ∧
    (∀ id, (freshTracker.tagStats id).currentBytes = 0 ∧
      (freshTracker.tagStats id).peakBytes = 0 ∧
      (freshTracker.tagStats id).allocCount = 0 ∧
      (freshTracker.tagStats id).freeCount = 0) ∧
    (∀ i, (freshTracker.records i).address = 0) := by
  refine ⟨?_, rfl, rfl, rfl, rfl, freshTracker_tagStats_counters, fun i => rfl⟩
  exact RecordDeallocation_notfound (by decide) (by decide)

/-- Claim C7 counterexample: on a freshly constructed tracker the
constructor has already registered tag 5 as "Network", so
`RegisterTag(5,"A")` followed by `RegisterTag(5,"B")` leaves the name
"Network", not "A". -/
theorem C7_counterexample :
    GetTagName (RegisterTag (RegisterTag freshTracker 5 false "A") 5 false "B") 5 =
      "Network" ∧
    GetTagName (RegisterTag (RegisterTag freshTracker 5 false "A") 5 false "B") 5 ≠
      "A" := by
  constructor
  · decide
  · decide

/-- Claim C7 (amended): `RegisterTag` is first-writer-wins — any
`RegisterTag` call for an id whose `registered` flag is already set is a
complete no-op, so only the first registration of an id stores its name.
On a freshly constructed tracker ids 0–9 are pre-registered by the
constructor, so the two-call scenario must use an unregistered id:
`RegisterTag(10,"A")` then `RegisterTag(10,"B")` leaves the name "A",
while for id 5 the constructor's registration won and the name stays
"Network". -/
theorem C7_first_writer_wins :
    (∀ (s : LightweightTracker) (id : Nat) (nb : Bool) (nm : String),
      (s.tagStats id).registered = true → RegisterTag s id nb nm = s) ∧
    GetTagName (RegisterTag (RegisterTag freshTracker 10 false "A") 10 false "B") 10 =
      "A" ∧
    GetTagName (RegisterTag (RegisterTag freshTracker 5 false "A") 5 false "B") 5 =
      "Network" := by
  refine ⟨?_, by decide, by decide⟩
  intro s id nb nm hreg
  unfold RegisterTag
  by_cases hg : LightweightConfig.MaxTags ≤ id ∨ nb = true
  · rw [if_pos hg]
  · rw [if_neg hg, if_pos hreg]

/-- Witness for C7: tag 2 is pre-registered ("Audio"), so a later
registration attempt is a no-op. -/
theorem C7_witness : RegisterTag freshTracker 2 false "X" = freshTracker :=
  C7_first_writer_wins.1 freshTracker 2 false "X" (by decide)

/-- Claim C8: the concrete per-category scenario.  `RegisterTag(5,"Foo")`
(a no-op for the name, since tag 5 is pre-registered), then
`RecordAllocation(0x1000, 128, 5)` gives `GetTagBytes(5) = 128` and
`GetActiveCount() = 1`; after `RecordDeallocation(0x1000)`,
`GetTagBytes(5) = 0`, `GetActiveCount() = 0` and category 5's `freeCount`
is 1. -/
theorem C8_category_scenario :
    GetTagBytes (RecordAllocation (RegisterTag freshTracker 5 false "Foo")
      4096 128 5 0) 5 = 128 ∧
    GetActiveCount (RecordAllocation (RegisterTag freshTracker 5 false "Foo")
      4096 128 5 0) = 1 ∧
    GetTagBytes (RecordDeallocation (RecordAllocation (RegisterTag freshTracker
      5 false "Foo") 4096 128 5 0) 4096) 5 = 0 ∧
    GetActiveCount (RecordDeallocation (RecordAllocation (RegisterTag freshTracker
      5 false "Foo") 4096 128 5 0) 4096) = 0 ∧
    ((RecordDeallocation (RecordAllocation (RegisterTag freshTracker 5 false "Foo")
      4096 128 5 0) 4096).tagStats 5).freeCount = 1 := by
  decide

/-- Claim C9: for every non-null buffer and capacity at least 1,
`GenerateReport` writes at most `capacity - 1` characters, returns exactly
the number of characters written (so the return value is at most
`capacity - 1`), places the NUL terminator at `buffer[written]`, and never
touches the buffer at or beyond `capacity`. -/
theorem C9_report_truncation (s : LightweightTracker) (buf0 : Nat → Char)
    (cap : Nat) (hcap : 1 ≤ cap) :
    (GenerateReport s false buf0 cap).written ≤ cap - 1 ∧
    (GenerateReport s false buf0 cap).buf (GenerateReport s false buf0 cap).written =
      Char.ofNat 0 ∧
    ∀ i, cap ≤ i → (GenerateReport s false buf0 cap).buf i = buf0 i := by
  have hg : ¬((false : Bool) = true ∨ cap = 0) := by
    simp
    omega
  have hB : ReportInv cap buf0 (reportBody s cap { buf := buf0, written := 0 }) :=
    reportBody_inv s { buf := buf0, written := 0 } ⟨Nat.zero_le _, fun i _ => rfl⟩
  obtain ⟨hw, hoob⟩ := hB
  unfold GenerateReport
  rw [if_neg hg]
  dsimp only
  refine ⟨hw, ?_, ?_⟩
  · simp [updateFn]
  · intro i hi
    have hne : i ≠ (reportBody s cap { buf := buf0, written := 0 }).written := by omega
    simp only [updateFn, if_neg hne]
    exact hoob i hi

/-- Witness for C9: a fresh tracker reported into a 5-byte buffer filled
with 'x'. -/
theorem C9_witness :
    (GenerateReport freshTracker false (fun _ => 'x') 5).written ≤ 4 ∧
    (GenerateReport freshTracker false (fun _ => 'x') 5).buf
      (GenerateReport freshTracker false (fun _ => 'x') 5).written = Char.ofNat 0 ∧
    (GenerateReport freshTracker false (fun _ => 'x') 5).buf 7 = 'x' := by
  have h := C9_report_truncation freshTracker (fun _ => 'x') 5 (by decide)
  exact ⟨h.1, h.2.1, h.2.2 7 (by decide)⟩

/-- Claim C10: a `RecordAllocation` with a category id of at least
`MaxTags` (64) — which includes `Tags::UserStart = 100` — never changes any
per-category statistics block, while (when a slot is claimed) the global
counters are still updated and the record is stored with that tag; and
`GetTagBytes`/`GetTagAllocCount` return 0 for every id of at least
`MaxTags`, in every state. -/
theorem C10_out_of_range_tag (s : LightweightTracker) (ptr size tag flags : Nat)
    (htag : LightweightConfig.MaxTags ≤ tag) (htag16 : tag < 65536) :
    (RecordAllocation s ptr size tag flags).tagStats = s.tagStats ∧
    GetTagBytes s tag = 0 ∧
    GetTagAllocCount s tag = 0 ∧
    (∀ j, probeClaim s.records (hashIdx ptr) 0 LightweightConfig.MaxProbes = some j →
      ptr ≠ 0 → s.hasRecords = true → s.enabled = true →
      (RecordAllocation s ptr size tag flags).totalBytes =
        w64add s.totalBytes (size % 4294967296) ∧
      (RecordAllocation s ptr size tag flags).activeCount = w64add s.activeCount 1 ∧
      ((RecordAllocation s ptr size tag flags).records j).address = ptr ∧
      ((RecordAllocation s ptr size tag flags).records j).size = size % 4294967296 ∧
      ((RecordAllocation s ptr size tag flags).records j).tag = tag ∧
      (RecordAllocation s ptr size tag flags).peakBytes =
        (if s.peakBytes < w64add s.totalBytes (size % 4294967296) then
          w64add s.totalBytes (size % 4294967296) else s.peakBytes)) := by
  have hmod : tag % 65536 = tag := Nat.mod_eq_of_lt htag16
  have hnotlt : ¬(tag < LightweightConfig.MaxTags) := not_lt.mpr htag
  refine ⟨?_, ?_, ?_, ?_⟩
  · by_cases hg : ptr = 0 ∨ s.hasRecords = false ∨ s.enabled = false
    · rw [RecordAllocation_guard hg]
    · cases hc : probeClaim s.records (hashIdx ptr) 0 LightweightConfig.MaxProbes with
      | none => rw [RecordAllocation_drop hg hc]
      | some j =>
        rw [RecordAllocation, if_neg hg]
        simp only [hc]
        rw [hmod, if_neg hnotlt]
  · unfold GetTagBytes
    rw [if_pos htag]
  · unfold GetTagAllocCount
    rw [if_pos htag]
  · intro j hc hptr hbuf hen
    have hg : ¬(ptr = 0 ∨ s.hasRecords = false ∨ s.enabled = false) := by
      simp [hptr, hbuf, hen]
    rw [RecordAllocation, if_neg hg]
    simp only [hc]
    refine ⟨trivial, trivial, ?_, ?_, ?_, trivial⟩
    · simp [updateFn]
    · simp [updateFn]
    · simp [updateFn, hmod]

/-- Witness for C10: inserting with the predefined `Tags::UserStart = 100`
on a fresh tracker updates the globals and stores the record but leaves the
per-category statistics untouched. -/
theorem C10_witness :
    (RecordAllocation freshTracker 4096 8 100 0).tagStats = freshTracker.tagStats ∧
    GetTagBytes freshTracker 100 = 0 ∧
    GetTagAllocCount freshTracker 100 = 0 ∧
    (RecordAllocation freshTracker 4096 8 100 0).totalBytes =
      w64add freshTracker.totalBytes (8 % 4294967296) ∧
    (RecordAllocation freshTracker 4096 8 100 0).activeCount =
      w64add freshTracker.activeCount 1 ∧
    ((RecordAllocation freshTracker 4096 8 100 0).records 4096).address = 4096 ∧
    ((RecordAllocation freshTracker 4096 8 100 0).records 4096).tag = 100 := by
  have h := C10_out_of_range_tag freshTracker 4096 8 100 0 (by decide) (by decide)
  have h2 := h.2.2.2 4096 (by decide) (by decide) rfl rfl
  exact ⟨h.1, h.2.1, h.2.2.1, h2.1, h2.2.1, h2.2.2.1, h2.2.2.2.2.1⟩
